import Mathlib

/-!
# Verification of the financial-news ingestion pipeline

Shallow embedding of `scripts/fetch_news.py` from the two repository
variants (`deepseek-rag-financial-news` — the scraping pipeline, and
`fin-news-deepseek-tuning` — the API pagination path), together with
proofs settling the specification claims.

Modelling conventions:
* Python `datetime` values are modelled at minute granularity by the
  calendar structure `DT` (year/month/day/hour/minute); conversion to and
  from absolute minutes uses the standard civil-calendar algorithms.
* Python strings are Lean `String`s; `str.lower` / `str.strip` are
  modelled character-wise (`lowerStr` / `pyStrip`), which agrees with
  Python on the ASCII inputs the pipeline handles.
* BeautifulSoup elements are abstracted by `El`: `childCount` is
  `len(tag.contents)` (a bs4 `Tag` is falsy exactly when it has no
  children), `parts` is the list of descendant strings (`get_text`
  joins them), `href` is the `href` attribute when present.
* The HTTP layer is an opaque function argument (`Option`-returning
  fetches; `Except` models a raised exception), matching the spec's
  treatment of transport as an external collaborator.
-/

namespace FinNews

/-! ## String helpers (Python `in`, `startswith`, `lower`, `strip`) -/

/-- `startsWithL pat cs`: `cs` begins with `pat` (Python `startswith`). -/
def startsWithL : List Char → List Char → Bool
  | [], _ => true
  | _ :: _, [] => false
  | p :: ps, c :: cs => p == c && startsWithL ps cs

/-- `hasSubL pat cs`: `pat` occurs as a contiguous run in `cs` (Python `in`). -/
def hasSubL (pat : List Char) : List Char → Bool
  | [] => startsWithL pat []
  | c :: cs => startsWithL pat (c :: cs) || hasSubL pat cs

/-- Python `pat in s` for strings. -/
def hasSub (s pat : String) : Bool := hasSubL pat.data s.data

/-- Python `s.startswith(pre)` for strings. -/
def startsWithS (s pre : String) : Bool := startsWithL pre.data s.data

/-- ASCII lower-casing, modelling `str.lower` on the pipeline's inputs. -/
def lowerStr (s : String) : String := String.mk (s.data.map Char.toLower)

/-- Whitespace as recognised by Python `str.strip` (ASCII fragment). -/
def isWsC (c : Char) : Bool := c == ' ' || c == '\t' || c == '\n' || c == '\r'

/-- Python `s.strip()`. -/
def pyStrip (s : String) : String :=
  String.mk (((s.data.dropWhile isWsC).reverse.dropWhile isWsC).reverse)

/-- Python `s.split(sep)` for a one-character separator, empties preserved. -/
def splitCharL (c : Char) : List Char → List (List Char)
  | [] => [[]]
  | x :: xs =>
    let r := splitCharL c xs
    if x == c then [] :: r
    else
      match r with
      | [] => [[x]]
      | h :: t => (x :: h) :: t

/-- Python `sep.join(l)`. -/
def joinSep (sep : String) : List String → String
  | [] => ""
  | [a] => a
  | a :: rest => a ++ sep ++ joinSep sep rest

/-- The digits of `s`, in order: `filter(str.isdigit, s)`. -/
def digitsOf (s : String) : List Char := s.data.filter Char.isDigit

/-- Value of a digit string, as computed by Python `int` on an all-digit string. -/
def digitsVal (ds : List Char) : Nat := ds.foldl (fun a c => 10 * a + (c.toNat - 48)) 0

/-- `int(''.join(filter(str.isdigit, s)))`: `none` models the `ValueError`
raised by `int('')` when the string holds no digit. -/
def extractInt (s : String) : Option Nat :=
  let ds := digitsOf s
  if ds.isEmpty then none else some (digitsVal ds)

/-! ## Calendar model (`datetime` at minute granularity) -/

/-- A `datetime` value: calendar date plus hour and minute. -/
structure DT where
  year : Int
  month : Int
  day : Int
  hour : Int
  minute : Int
deriving DecidableEq, Repr

/-- Days from civil date to the 1970-01-01 epoch (Hinnant's algorithm). -/
def daysFromCivil (y m d : Int) : Int :=
  let y := if m ≤ 2 then y - 1 else y
  let era := (if 0 ≤ y then y else y - 399).ediv 400
  let yoe := y - era * 400
  let mp := if 2 < m then m - 3 else m + 9
  let doy := (153 * mp + 2).ediv 5 + d - 1
  let doe := yoe * 365 + yoe.ediv 4 - yoe.ediv 100 + doy
  era * 146097 + doe - 719468

/-- Civil date from days since the 1970-01-01 epoch. -/
def civilFromDays (z0 : Int) : Int × Int × Int :=
  let z := z0 + 719468
  let era := (if 0 ≤ z then z else z - 146096).ediv 146097
  let doe := z - era * 146097
  let yoe := (doe - doe.ediv 1460 + doe.ediv 36524 - doe.ediv 146096).ediv 365
  let y := yoe + era * 400
  let doy := doe - (365 * yoe + yoe.ediv 4 - yoe.ediv 100)
  let mp := (5 * doy + 2).ediv 153
  let d := doy - (153 * mp + 2).ediv 5 + 1
  let m := if mp < 10 then mp + 3 else mp - 9
  (if m ≤ 2 then y + 1 else y, m, d)

/-- Absolute minutes since the epoch of a `DT`. -/
def dtMinutes (t : DT) : Int :=
  1440 * daysFromCivil t.year t.month t.day + 60 * t.hour + t.minute

/-- The `DT` at a given number of absolute minutes since the epoch. -/
def minutesToDT (n : Int) : DT :=
  let d := n.ediv 1440
  let r := n.emod 1440
  let c := civilFromDays d
  ⟨c.1, c.2.1, c.2.2, r.ediv 60, r.emod 60⟩

/-- Zero-pad a (nonnegative) field to two digits. -/
def pad2 (n : Int) : String :=
  let m := n.toNat
  if m < 10 then "0" ++ toString m else toString m

/-- Zero-pad a (nonnegative) year to four digits. -/
def pad4 (n : Int) : String :=
  let m := n.toNat
  if m < 10 then "000" ++ toString m
  else if m < 100 then "00" ++ toString m
  else if m < 1000 then "0" ++ toString m
  else toString m

/-- `datetime.isoformat()` at minute granularity (seconds are always zero
for the values this pipeline constructs, and microseconds are out of the
model's granularity). -/
def isoOfDT (t : DT) : String :=
  pad4 t.year ++ "-" ++ pad2 t.month ++ "-" ++ pad2 t.day ++ "T" ++
    pad2 t.hour ++ ":" ++ pad2 t.minute ++ ":00"

/-- ISO form of an absolute-minutes timestamp. -/
def isoOfMin (n : Int) : String := isoOfDT (minutesToDT n)

/-! ## `datetime.strptime` over the fixed format list

The 14 formats used by `_parse_date` use only the directives `%Y %m %d %b
%B` plus literal separators; whitespace in a format matches one-or-more
whitespace characters (CPython compiles format whitespace to `\s+`).
Digit directives follow CPython's `_strptime` regexes:
`%Y` is exactly four digits, `%m` is `1[0-2]|0[1-9]|[1-9]`,
`%d` is `3[01]|[12]\d|0[1-9]|[1-9]`. -/

inductive FTok where
  | lit (c : Char)
  | ws
  | pY
  | pM
  | pD
  | pb
  | pB
deriving DecidableEq, Repr

/-- Numeric value of a digit character. -/
def digitVal (c : Char) : Int := (c.toNat : Int) - 48

/-- Lower-case month abbreviations for `%b` (input is lower-cased first). -/
def monthAbbrevs : List (String × Int) :=
  [("jan", 1), ("feb", 2), ("mar", 3), ("apr", 4), ("may", 5), ("jun", 6),
   ("jul", 7), ("aug", 8), ("sep", 9), ("oct", 10), ("nov", 11), ("dec", 12)]

/-- Lower-case full month names for `%B`. -/
def monthNames : List (String × Int) :=
  [("january", 1), ("february", 2), ("march", 3), ("april", 4), ("may", 5),
   ("june", 6), ("july", 7), ("august", 8), ("september", 9), ("october", 10),
   ("november", 11), ("december", 12)]

/-- Match one name from a table at the head of the input. -/
def matchNameTok : List (String × Int) → List Char → Option (Int × List Char)
  | [], _ => none
  | (nm, v) :: rest, cs =>
    if startsWithL nm.data cs then some (v, cs.drop nm.data.length)
    else matchNameTok rest cs

/-- `%Y`: exactly four digits. -/
def matchY : List Char → Option (Int × List Char)
  | a :: b :: c :: d :: rest =>
    if a.isDigit && b.isDigit && c.isDigit && d.isDigit then
      some (1000 * digitVal a + 100 * digitVal b + 10 * digitVal c + digitVal d, rest)
    else none
  | _ => none

/-- `%m`: `1[0-2]|0[1-9]|[1-9]`, two-digit alternatives first. -/
def matchM : List Char → Option (Int × List Char)
  | c1 :: c2 :: rest =>
    if c1 == '1' && (48 ≤ c2.toNat && c2.toNat ≤ 50) then some (10 + digitVal c2, rest)
    else if c1 == '0' && (49 ≤ c2.toNat && c2.toNat ≤ 57) then some (digitVal c2, rest)
    else if 49 ≤ c1.toNat && c1.toNat ≤ 57 then some (digitVal c1, c2 :: rest)
    else none
  | [c1] => if 49 ≤ c1.toNat && c1.toNat ≤ 57 then some (digitVal c1, []) else none
  | [] => none

/-- `%d`: `3[01]|[12]\d|0[1-9]|[1-9]`, two-digit alternatives first. -/
def matchD : List Char → Option (Int × List Char)
  | c1 :: c2 :: rest =>
    if c1 == '3' && (c2 == '0' || c2 == '1') then some (30 + digitVal c2, rest)
    else if (c1 == '1' || c1 == '2') && c2.isDigit then
      some (10 * digitVal c1 + digitVal c2, rest)
    else if c1 == '0' && (49 ≤ c2.toNat && c2.toNat ≤ 57) then some (digitVal c2, rest)
    else if 49 ≤ c1.toNat && c1.toNat ≤ 57 then some (digitVal c1, c2 :: rest)
    else none
  | [c1] => if 49 ≤ c1.toNat && c1.toNat ≤ 57 then some (digitVal c1, []) else none
  | [] => none

/-- Fields collected while running one format. -/
structure PFields where
  py : Option Int
  pmn : Option Int
  pdy : Option Int
deriving DecidableEq, Repr

/-- Run a token list over the input; the whole input must be consumed
(CPython rejects a match with unconverted data remaining). -/
def runToks : List FTok → List Char → PFields → Option PFields
  | [], cs, f => if cs.isEmpty then some f else none
  | .lit c :: ts, cs, f =>
    match cs with
    | c0 :: rest => if c0 == c then runToks ts rest f else none
    | [] => none
  | .ws :: ts, cs, f =>
    match cs with
    | c0 :: rest => if isWsC c0 then runToks ts (rest.dropWhile isWsC) f else none
    | [] => none
  | .pY :: ts, cs, f =>
    match matchY cs with
    | some (v, rest) => runToks ts rest { f with py := some v }
    | none => none
  | .pM :: ts, cs, f =>
    match matchM cs with
    | some (v, rest) => runToks ts rest { f with pmn := some v }
    | none => none
  | .pD :: ts, cs, f =>
    match matchD cs with
    | some (v, rest) => runToks ts rest { f with pdy := some v }
    | none => none
  | .pb :: ts, cs, f =>
    match matchNameTok monthAbbrevs cs with
    | some (v, rest) => runToks ts rest { f with pmn := some v }
    | none => none
  | .pB :: ts, cs, f =>
    match matchNameTok monthNames cs with
    | some (v, rest) => runToks ts rest { f with pmn := some v }
    | none => none

/-- Gregorian leap year. -/
def isLeap (y : Int) : Bool := y.emod 4 == 0 && (y.emod 100 != 0 || y.emod 400 == 0)

/-- Length of a month (calendar validation done by `datetime`). -/
def daysInMonth (y m : Int) : Int :=
  if m == 2 then (if isLeap y then 29 else 28)
  else if m == 4 || m == 6 || m == 9 || m == 11 then 30
  else 31

/-- Run a single format: parse, apply `strptime` defaults (year 1900,
month 1, day 1), and validate the day against the month, as `datetime`
construction does. Failure means the format is rejected (a `ValueError`). -/
def runFormat (toks : List FTok) (cs : List Char) : Option DT :=
  match runToks toks cs ⟨none, none, none⟩ with
  | none => none
  | some f =>
    let y := f.py.getD 1900
    let m := f.pmn.getD 1
    let d := f.pdy.getD 1
    if 1 ≤ d ∧ d ≤ daysInMonth y m then some ⟨y, m, d, 0, 0⟩ else none

/-- The format list of `_parse_date`, in source order. -/
def fmtList : List (List FTok) :=
  [ [.pY, .lit '-', .pM, .lit '-', .pD],
    [.pb, .ws, .pD, .lit ',', .ws, .pY],
    [.pD, .ws, .pb, .ws, .pY],
    [.pB, .ws, .pD, .lit ',', .ws, .pY],
    [.pD, .ws, .pB, .ws, .pY],
    [.pM, .lit '/', .pD, .lit '/', .pY],
    [.pD, .lit '/', .pM, .lit '/', .pY],
    [.pY, .lit '/', .pM, .lit '/', .pD],
    [.pM, .lit '-', .pD, .lit '-', .pY],
    [.pD, .lit '-', .pM, .lit '-', .pY],
    [.pb, .ws, .pD],
    [.pD, .ws, .pb],
    [.pB, .ws, .pD],
    [.pD, .ws, .pB] ]

/-- First format that parses the whole string (`except ValueError: continue`). -/
def tryFormatsL : List (List FTok) → List Char → Option DT
  | [], _ => none
  | f :: fs, cs =>
    match runFormat f cs with
    | some d => some d
    | none => tryFormatsL fs cs

/-- Try every absolute format of `_parse_date` in order. -/
def tryFormats (s : String) : Option DT := tryFormatsL fmtList s.data

/-! ## `_parse_date` -/

/-- Body of `_parse_date` after `date_text.lower().strip()` has been
applied (argument `t`).  Matches the source branch for branch; in the
relative branches, `extractInt` returning `none` models the `ValueError`
of `int('')`, which the enclosing handler converts to "return now". -/
def parseDateCore (t : String) (now : DT) : String :=
  if hasSub t "ago" then
    if hasSub t "minute" || hasSub t "min" then
      match extractInt t with
      | some n => isoOfMin (dtMinutes now - ((n : Nat) : Int))
      | none => isoOfDT now
    else if hasSub t "hour" || hasSub t "hr" then
      match extractInt t with
      | some n => isoOfMin (dtMinutes now - ((60 * n : Nat) : Int))
      | none => isoOfDT now
    else if hasSub t "day" then
      match extractInt t with
      | some n => isoOfMin (dtMinutes now - ((1440 * n : Nat) : Int))
      | none => isoOfDT now
    else if hasSub t "week" then
      match extractInt t with
      | some n => isoOfMin (dtMinutes now - ((10080 * n : Nat) : Int))
      | none => isoOfDT now
    else if hasSub t "month" then
      match extractInt t with
      | some n => isoOfMin (dtMinutes now - ((43200 * n : Nat) : Int))
      | none => isoOfDT now
    else isoOfDT now
  else if hasSub t "today" then isoOfDT now
  else if hasSub t "yesterday" then isoOfMin (dtMinutes now - 1440)
  else
    match tryFormats t with
    | some d => isoOfDT (if d.year == 1900 then { d with year := now.year } else d)
    | none => isoOfDT now

/-- `FinancialNewsScraper._parse_date`, with the reference time `now`
passed explicitly (the source calls `datetime.now()`). -/
def parse_date (raw : String) (now : DT) : String :=
  parseDateCore (pyStrip (lowerStr raw)) now

/-! ## `urllib.parse.urljoin` (the fragment the pipeline exercises)

Modelled from CPython `Lib/urllib/parse.py`: scheme detection and
lower-casing as in `urlsplit`, the `uses_relative` gate, netloc takeover,
and relative-path resolution with dot-segment removal.  Query/fragment
splitting is not modelled (`?`/`#` are carried inside the path); none of
the pipeline's claims involve query strings or fragments. -/

/-- Characters allowed in a URL scheme after the leading letter. -/
def isSchemeTail (c : Char) : Bool := c.isAlpha || c.isDigit || c == '+' || c == '-' || c == '.'

/-- Split off `scheme:` when the text before the first `:` is a valid,
nonempty scheme (first char a letter, rest scheme chars); the scheme is
lower-cased, as `urlsplit` does. -/
def splitSchemeL (cs : List Char) : Option (List Char × List Char) :=
  let pre := cs.takeWhile (fun c => c != ':')
  match cs.drop pre.length with
  | ':' :: rest =>
    match pre with
    | [] => none
    | c0 :: tail =>
      if c0.isAlpha && tail.all isSchemeTail then some (pre.map Char.toLower, rest)
      else none
  | _ => none

/-- Split `//netloc` off the front of a scheme-relative rest. -/
def splitNetlocL : List Char → List Char × List Char
  | '/' :: '/' :: rest => (rest.takeWhile (fun c => c != '/'), rest.dropWhile (fun c => c != '/'))
  | cs => ([], cs)

/-- CPython `uses_relative`. -/
def usesRelative : List String :=
  ["", "ftp", "http", "gopher", "nntp", "imap", "wais", "file", "https",
   "shttp", "mms", "prospero", "rtsp", "rtspu", "sftp", "svn", "svn+ssh", "ws", "wss"]

/-- Reassemble `scheme://netloc path` (`urlunsplit` restricted to the
query-free shapes this pipeline produces). -/
def unsplitUrl (scheme netloc path : List Char) : String :=
  String.mk (scheme ++ [':'] ++ (if netloc.isEmpty then [] else '/' :: '/' :: netloc) ++ path)

/-- Fold of the resolved-segment loop: `..` pops (ignoring pops of an
empty stack), `.` is dropped, anything else is kept. -/
def resolveSegsAux : List String → List String → List String
  | [], acc => acc.reverse
  | s :: rest, acc =>
    if s == ".." then resolveSegsAux rest (acc.drop 1)
    else if s == "." then resolveSegsAux rest acc
    else resolveSegsAux rest (s :: acc)

/-- `segments[1:-1] = filter(None, segments[1:-1])`. -/
def middleFilter : List String → List String
  | [] => []
  | [a] => [a]
  | a :: rest => a :: ((rest.dropLast.filter (fun s => s != "")) ++ [rest.getLastD ""])

/-- Python `s.split('/')` as strings. -/
def splitSlash (s : String) : List String := (splitCharL '/' s.data).map String.mk

/-- Relative-path resolution step of `urljoin`. -/
def urljoinPath (bpath path : String) : String :=
  let baseParts0 := splitSlash bpath
  let baseParts := if baseParts0.getLastD "" == "" then baseParts0 else baseParts0.dropLast
  let segments :=
    if startsWithS path "/" then splitSlash path
    else middleFilter (baseParts ++ splitSlash path)
  let resolved := resolveSegsAux segments []
  let resolved :=
    if segments.getLastD "" == "." || segments.getLastD "" == ".." then resolved ++ [""]
    else resolved
  let joined := joinSep "/" resolved
  if joined == "" then "/" else joined

/-- `urllib.parse.urljoin`. -/
def urljoinModel (base url : String) : String :=
  if base == "" then url
  else if url == "" then base
  else
    let bs := (splitSchemeL base.data).getD ([], base.data)
    let us := (splitSchemeL url.data).getD (bs.1, url.data)
    if us.1 ≠ bs.1 ∨ ¬ usesRelative.contains (String.mk us.1) then url
    else
      let bn := splitNetlocL bs.2
      let un := splitNetlocL us.2
      if ¬ un.1.isEmpty then unsplitUrl us.1 un.1 un.2
      else if un.2.isEmpty then unsplitUrl us.1 bn.1 bn.2
      else unsplitUrl us.1 bn.1 (urljoinPath (String.mk bn.2) (String.mk un.2)).data

/-! ## Source extraction (`_scrape_source`) -/

/-- Abstraction of a BeautifulSoup element: `childCount` is
`len(tag.contents)` (a `Tag` is falsy iff it has no children), `parts`
the descendant strings joined by `get_text`, `href` the attribute. -/
structure El where
  childCount : Nat
  parts : List String
  href : Option String
deriving DecidableEq, Repr

/-- Python truthiness of a bs4 `Tag`. -/
def El.truthy (e : El) : Bool := e.childCount != 0

/-- `tag.get_text()` (no separator). -/
def El.text (e : El) : String := joinSep "" e.parts

/-- `tag.get_text(separator='\n')`. -/
def El.textNl (e : El) : String := joinSep "\n" e.parts

/-- Truthiness of a `select_one` result (`None` or a childless tag is falsy). -/
def selTruthy : Option El → Bool
  | none => false
  | some e => e.truthy

/-- The results of the four `select_one` calls on one candidate article
node (the selectors are fixed per source, so a node is fully described
by what each sub-selector returns on it). -/
structure ArticleNode where
  titleEl : Option El
  linkEl : Option El
  summaryEl : Option El
  dateEl : Option El
deriving DecidableEq, Repr

/-- One `SOURCES` registry entry: `name`, base `url`, and whether the
optional summary/date selectors are non-null for this source. -/
structure SourceConfig where
  name : String
  url : String
  summarySel : Bool
  dateSel : Bool
deriving DecidableEq, Repr

/-- The article record built by `_scrape_source` (keys `source{id,name}`,
`title`, `description`, `url`, `publishedAt`, `content`). -/
structure Article where
  sourceId : String
  sourceName : String
  title : String
  description : String
  url : String
  publishedAt : String
  content : Option String
deriving DecidableEq, Repr

/-- `if not link.startswith(('http://', 'https://')): link = urljoin(base, link)`. -/
def resolveLink (baseUrl link : String) : String :=
  if startsWithS link "http://" || startsWithS link "https://" then link
  else urljoinModel baseUrl link

/-- The per-node body of the `_scrape_source` loop: `none` models
`continue` (node skipped). -/
def nodeToStub (sid : String) (cfg : SourceConfig) (now : DT) (n : ArticleNode) : Option Article :=
  match n.titleEl with
  | none => none
  | some te =>
    if te.childCount == 0 then none
    else
      let title := pyStrip te.text
      match n.linkEl with
      | none => none
      | some le =>
        if le.childCount == 0 then none
        else
          match le.href with
          | none => none
          | some link =>
            let url := resolveLink cfg.url link
            let summary :=
              if cfg.summarySel then
                match n.summaryEl with
                | some se => if se.truthy then pyStrip se.text else ""
                | none => ""
              else ""
            let publishedAt :=
              if cfg.dateSel then
                match n.dateEl with
                | some de =>
                  if de.truthy then parse_date (pyStrip de.text) now else isoOfDT now
                | none => isoOfDT now
              else isoOfDT now
            some { sourceId := sid, sourceName := cfg.name, title := title,
                   description := summary, url := url, publishedAt := publishedAt,
                   content := none }

/-- The extraction loop of `_scrape_source` over the selected candidate
nodes, in document order (appends to `articles` become `filterMap`). -/
def scrapeArticles (sid : String) (cfg : SourceConfig) (now : DT)
    (nodes : List ArticleNode) : List Article :=
  nodes.filterMap (nodeToStub sid cfg now)

/-- `_scrape_source` including the page fetch: no HTML (request failed or
falsy body) yields zero articles. -/
def scrape_source (sid : String) (cfg : SourceConfig) (now : DT)
    (fetched : Option (List ArticleNode)) : List Article :=
  match fetched with
  | none => []
  | some nodes => scrapeArticles sid cfg now nodes

/-! ## Content enrichment (`fetch_article_content`) -/

/-- The parsed article page after `decompose` of scripts/styles/nav/…:
`bodyCandidates` holds, in order, the `select_one` result for each entry
of the fixed body-selector chain; `paragraphs` is `soup.find_all('p')`. -/
structure PageDoc where
  bodyCandidates : List (Option El)
  paragraphs : List El
deriving DecidableEq, Repr

/-- The selector loop: first candidate that is present and truthy wins. -/
def firstTruthy : List (Option El) → Option El
  | [] => none
  | c :: cs =>
    match c with
    | some e => if e.truthy then some e else firstTruthy cs
    | none => firstTruthy cs

/-- `'\n'.join(line.strip() for line in s.split('\n') if line.strip())`. -/
def cleanLines (s : String) : String :=
  joinSep "\n" ((((splitCharL '\n' s.data).map String.mk).map pyStrip).filter
    (fun l => l != ""))

/-- `'\n'.join(p.get_text().strip() for p in paragraphs if p.get_text().strip())`. -/
def paraContent (ps : List El) : String :=
  joinSep "\n" ((ps.map (fun p => pyStrip p.text)).filter (fun l => l != ""))

/-- `FinancialNewsScraper.fetch_article_content`; `fetch` abstracts
`_make_request` plus HTML parsing (`none` = no/falsy HTML). -/
def fetch_article_content (fetch : String → Option PageDoc) (a : Article) : Article :=
  if a.url == "" then a
  else
    match fetch a.url with
    | none => a
    | some doc =>
      match firstTruthy doc.bodyCandidates with
      | some body => { a with content := some (cleanLines (pyStrip body.textNl)) }
      | none =>
        if doc.paragraphs.isEmpty then a
        else { a with content := some (paraContent doc.paragraphs) }

/-! ## Orchestration (`fetch_news`) -/

/-- Python string `<`: lexicographic comparison by code point. -/
def ltChars : List Char → List Char → Bool
  | [], [] => false
  | [], _ :: _ => true
  | _ :: _, [] => false
  | a :: as, b :: bs =>
    if a.toNat < b.toNat then true
    else if b.toNat < a.toNat then false
    else ltChars as bs

/-- Python string `<=` (total order: `a <= b` iff not `b < a`). -/
def leStr (a b : String) : Bool := !(ltChars b.data a.data)

/-- Descending stable sort by the `publishedAt` string:
`all_articles.sort(key=lambda x: x.get('publishedAt', ''), reverse=True)`.
Python's sort is stable, and `reverse=True` reverses comparisons only, so
the result is the unique stable descending order; `insertionSort` with
"b's key at most a's key" computes exactly that order. -/
def sortDesc (l : List Article) : List Article :=
  List.insertionSort (fun a b => leStr b.publishedAt a.publishedAt = true) l

/-- Merge step of `fetch_news`: resolve the requested source ids against
the registry (unknown ids dropped), scrape each, and concatenate, a
scraping exception (`Except.error`, caught at `future.result()`)
contributing zero articles.  The thread pool's `as_completed` collection
order is abstracted to submission order. -/
def collectArticles (registry : List (String × SourceConfig))
    (scrape : String → SourceConfig → Except String (List Article))
    (sources : Option (List String)) : List Article :=
  let ids :=
    match sources with
    | none => registry.map Prod.fst
    | some ss => ss.filter (fun s => (registry.lookup s).isSome)
  ids.flatMap (fun sid =>
    match registry.lookup sid with
    | some cfg =>
      match scrape sid cfg with
      | .ok arts => arts
      | .error _ => []
    | none => [])

/-- `FinancialNewsScraper.fetch_news`.  Returns the final list together
with `some list` when `_save_articles` was invoked with it (`none` when
nothing was written). -/
def fetch_news (registry : List (String × SourceConfig))
    (scrape : String → SourceConfig → Except String (List Article))
    (fetchDoc : String → Option PageDoc)
    (sources : Option (List String)) (fetchContent save : Bool) :
    List Article × Option (List Article) :=
  let all0 := collectArticles registry scrape sources
  let all1 :=
    if fetchContent && !all0.isEmpty then all0.map (fetch_article_content fetchDoc)
    else all0
  let sorted := sortDesc all1
  (sorted, if save && !sorted.isEmpty then some sorted else none)

/-! ## API ingestion path (`fetch_financial_news`) -/

/-- One decoded API page: `status`, `articles`, `totalResults`. -/
structure ApiPage (α : Type) where
  status : String
  articles : List α
  totalResults : Nat
deriving Repr

/-- The `while True` pagination loop of `fetch_financial_news`; `pages`
abstracts the (already rate-limited) page requests.  A non-`ok` status
raises (`Except.error`); otherwise the loop stops at the first of: an
empty page, the running total reaching `totalResults`, or the hard cap
of 100 results. -/
def fetchPagesLoop {α : Type} (pages : Nat → ApiPage α) (page : Nat) (acc : List α) :
    Except String (List α) :=
  if (pages page).status != "ok" then .error "API Error"
  else if (pages page).articles.isEmpty then .ok acc
  else if (pages page).totalResults ≤ (acc ++ (pages page).articles).length then
    .ok (acc ++ (pages page).articles)
  else if 100 ≤ (acc ++ (pages page).articles).length then
    .ok (acc ++ (pages page).articles)
  else fetchPagesLoop pages (page + 1) (acc ++ (pages page).articles)
termination_by 100 - acc.length
decreasing_by
  rename_i hne _ hcap
  have h1 : (pages page).articles.length ≠ 0 := by
    simpa [List.isEmpty_iff, List.length_eq_zero] using hne
  simp only [List.length_append] at hcap ⊢
  omega

/-- `NewsAPIFetcher.fetch_financial_news`, starting at page 1 with an
empty accumulator. -/
def fetch_financial_news {α : Type} (pages : Nat → ApiPage α) : Except String (List α) :=
  fetchPagesLoop pages 1 []

/-! ## Shared concrete fixtures -/

/-- A fixed reference time used by concrete witnesses. -/
def dt0 : DT := ⟨2024, 5, 1, 12, 0⟩

/-- A registry entry with both optional selectors present. -/
def cfg0 : SourceConfig := ⟨"Yahoo Finance", "https://finance.yahoo.com/news/", true, true⟩

/-! ## Claim C6: API pagination stop conditions -/

/-- C6: for every sequence of API page responses, the pagination loop
stops at the first of: an `ok` page with no articles (returning the
accumulator), the running total reaching the API-reported
`totalResults`, or the running total reaching the hard cap of 100; and
with every page carrying 100 articles and `totalResults = 250`, the run
collects exactly the 100 articles of the first page, not 250. -/
theorem c6_api_pagination_cap {α : Type} (pages : Nat → ApiPage α) :
    (∀ p acc, (pages p).status = "ok" → (pages p).articles = [] →
        fetchPagesLoop pages p acc = .ok acc)
    ∧ (∀ p acc, (pages p).status = "ok" → (pages p).articles ≠ [] →
        (pages p).totalResults ≤ (acc ++ (pages p).articles).length →
        fetchPagesLoop pages p acc = .ok (acc ++ (pages p).articles))
    ∧ (∀ p acc, (pages p).status = "ok" → (pages p).articles ≠ [] →
        100 ≤ (acc ++ (pages p).articles).length →
        fetchPagesLoop pages p acc = .ok (acc ++ (pages p).articles))
    ∧ ((∀ p, (pages p).status = "ok" ∧ (pages p).articles.length = 100 ∧
          (pages p).totalResults = 250) →
        fetch_financial_news pages = .ok ((pages 1).articles) ∧
          ((pages 1).articles).length = 100) := by
  refine ⟨?_, ?_, ?_, ?_⟩
  · intro p acc hok hempty
    rw [fetchPagesLoop]
    rw [if_neg (by simp [hok]), if_pos (by simp [hempty])]
  · intro p acc hok hne htot
    rw [fetchPagesLoop]
    rw [if_neg (by simp [hok]), if_neg (by simp [List.isEmpty_iff, hne]), if_pos htot]
  · intro p acc hok hne hcap
    rw [fetchPagesLoop]
    rw [if_neg (by simp [hok]), if_neg (by simp [List.isEmpty_iff, hne])]
    by_cases htot : (pages p).totalResults ≤ (acc ++ (pages p).articles).length
    · rw [if_pos htot]
    · rw [if_neg htot, if_pos hcap]
  · intro hall
    obtain ⟨hok, hlen, htot⟩ := hall 1
    have hne : (pages 1).articles ≠ [] := by
      intro h; rw [h] at hlen; simp at hlen
    constructor
    · unfold fetch_financial_news
      rw [fetchPagesLoop]
      rw [if_neg (by simp [hok]), if_neg (by simp [List.isEmpty_iff, hne])]
      rw [if_neg (by simp [hlen, htot]), if_pos (by simp [hlen])]
      simp
    · exact hlen

/-- Witness for C6: a page source with 100 articles per page and a
reported total of 250 stops after 100 collected articles. -/
theorem c6_api_pagination_cap_witness :
    fetch_financial_news (α := Nat) (fun _ => ⟨"ok", List.replicate 100 0, 250⟩) =
      .ok (List.replicate 100 0) ∧ (List.replicate 100 (0 : Nat)).length = 100 :=
  (c6_api_pagination_cap (fun _ => ⟨"ok", List.replicate 100 0, 250⟩)).2.2.2
    (fun _ => ⟨rfl, by simp, rfl⟩)

/-! ## Claim C7: enrichment never fails, but a matched-but-blank body
yields the empty string, not null -/

/-- A page whose first body-container selector matches a truthy element
holding only whitespace text. -/
def c7Doc : PageDoc := ⟨[some ⟨1, [" "], none⟩], []⟩

/-- A stub to be enriched. -/
def c7Art : Article :=
  ⟨"yahoo_finance", "Yahoo Finance", "T", "", "https://example.com/a",
   "2024-01-01T00:00:00", none⟩

/-- C7 counterexample: the body-container chain matches an element whose
text is blank, so neither path yields any text, yet `content` is set to
the empty string rather than remaining null — against the claim. -/
theorem c7_counterexample :
    (fetch_article_content (fun _ => some c7Doc) c7Art).content = some "" ∧
      some "" ≠ (none : Option String) := ⟨rfl, by simp⟩

/-- C7 amended: enrich never fails the pipeline — an empty url or a
failed fetch returns the stub unchanged; `content` remains null when no
body-container candidate is present-and-truthy and the page has no
paragraph elements; but when a truthy body container matches, `content`
is set to its cleaned text, which is the empty string (not null) when
that text is blank. -/
theorem c7_enrich_amended :
    (∀ (fetch : String → Option PageDoc) (a : Article), a.url = "" →
        fetch_article_content fetch a = a)
    ∧ (∀ (fetch : String → Option PageDoc) (a : Article), fetch a.url = none →
        fetch_article_content fetch a = a)
    ∧ (∀ (fetch : String → Option PageDoc) (a : Article) (doc : PageDoc),
        fetch a.url = some doc → firstTruthy doc.bodyCandidates = none →
        doc.paragraphs = [] → fetch_article_content fetch a = a)
    ∧ (∀ (fetch : String → Option PageDoc) (a : Article) (doc : PageDoc) (body : El),
        fetch a.url = some doc → firstTruthy doc.bodyCandidates = some body →
        (fetch_article_content fetch a).content =
          (if a.url = "" then a.content
           else some (cleanLines (pyStrip body.textNl)))) := by
  refine ⟨?_, ?_, ?_, ?_⟩
  · intro fetch a h
    unfold fetch_article_content
    simp [h]
  · intro fetch a h
    unfold fetch_article_content
    by_cases hu : a.url = "" <;> simp [hu, h]
  · intro fetch a doc hf hb hp
    unfold fetch_article_content
    by_cases hu : a.url = "" <;> simp [hu, hf, hb, hp]
  · intro fetch a doc body hf hb
    unfold fetch_article_content
    by_cases hu : a.url = "" <;> simp [hu, hf, hb]

/-- Witness for C7 (amended): a fetch failure leaves the stub unchanged,
and a truthy body with blank text produces the empty-string content. -/
theorem c7_enrich_amended_witness :
    fetch_article_content (fun _ => none) c7Art = c7Art ∧
      (fetch_article_content (fun _ => some c7Doc) c7Art).content = some "" := by
  constructor
  · exact c7_enrich_amended.2.1 (fun _ => none) c7Art rfl
  · have h := c7_enrich_amended.2.2.2 (fun _ => some c7Doc) c7Art c7Doc ⟨1, [" "], none⟩
      rfl rfl
    simpa using h

/-! ## Substring lemmas for the relative-date proofs -/

theorem hasSubL_append_left {pat : List Char} (xs ys : List Char)
    (h : hasSubL pat ys = true) : hasSubL pat (xs ++ ys) = true := by
  induction xs with
  | nil => simpa using h
  | cons c cs ih =>
    rw [List.cons_append, hasSubL]
    simp [ih]

/-- A nonempty pattern with no digit characters cannot start inside an
all-digit prefix, so the prefix can be dropped from a containment check. -/
theorem hasSubL_digit_drop {pat : List Char} (ds ys : List Char)
    (hds : ds.all Char.isDigit = true) (hne : pat ≠ [])
    (hnd : pat.all (fun c => !c.isDigit) = true) :
    hasSubL pat (ds ++ ys) = hasSubL pat ys := by
  induction ds with
  | nil => rfl
  | cons d rest ih =>
    rw [List.all_cons, Bool.and_eq_true] at hds
    rw [List.cons_append, hasSubL]
    have hsw : startsWithL pat (d :: (rest ++ ys)) = false := by
      cases pat with
      | nil => exact absurd rfl hne
      | cons p ps =>
        rw [startsWithL]
        have hp : p.isDigit = false := by
          rw [List.all_cons, Bool.and_eq_true] at hnd
          simpa using hnd.1
        have hpd : (p == d) = false := by
          rw [beq_eq_false_iff_ne]
          intro h
          rw [h, hds.1] at hp
          exact Bool.noConfusion hp
        simp [hpd]
    rw [hsw, Bool.false_or]
    exact ih hds.2

theorem hasSub_digit_drop (ds : List Char) (suf pat : String)
    (hds : ds.all Char.isDigit = true) (hne : pat.data ≠ [])
    (hnd : pat.data.all (fun c => !c.isDigit) = true) :
    hasSub (String.mk ds ++ suf) pat = hasSub suf pat := by
  unfold hasSub
  rw [String.data_append]
  exact hasSubL_digit_drop ds suf.data hds hne hnd

theorem digitsOf_mk_append (ds : List Char) (suf : String)
    (hds : ds.all Char.isDigit = true) (hsuf : digitsOf suf = []) :
    digitsOf (String.mk ds ++ suf) = ds := by
  unfold digitsOf at *
  rw [String.data_append, List.filter_append, hsuf, List.append_nil]
  exact List.filter_eq_self.mpr (fun a ha => List.all_eq_true.mp hds a ha)

theorem extractInt_mk_append (ds : List Char) (suf : String) (hne : ds ≠ [])
    (hds : ds.all Char.isDigit = true) (hsuf : digitsOf suf = []) :
    extractInt (String.mk ds ++ suf) = some (digitsVal ds) := by
  unfold extractInt
  rw [digitsOf_mk_append ds suf hds hsuf]
  rw [if_neg (by simp [List.isEmpty_iff, hne])]

/-! ## Claim C2: extraction skip condition and document order -/

/-- The actual keep condition of the extraction loop: title element
found and truthy, link element found and truthy, link has an `href`.
(No check on the title's *text*.) -/
def nodeKept (n : ArticleNode) : Bool :=
  selTruthy n.titleEl && selTruthy n.linkEl &&
    (match n.linkEl with
     | some le => le.href.isSome
     | none => false)

/-- The stub built for a kept node, written as a total function (defaults
are never reached on kept nodes). -/
def keptStub (sid : String) (cfg : SourceConfig) (now : DT) (n : ArticleNode) : Article :=
  let te := n.titleEl.getD ⟨0, [], none⟩
  let le := n.linkEl.getD ⟨0, [], none⟩
  { sourceId := sid, sourceName := cfg.name,
    title := pyStrip te.text,
    description :=
      if cfg.summarySel then
        match n.summaryEl with
        | some se => if se.truthy then pyStrip se.text else ""
        | none => ""
      else "",
    url := resolveLink cfg.url (le.href.getD ""),
    publishedAt :=
      if cfg.dateSel then
        match n.dateEl with
        | some de => if de.truthy then parse_date (pyStrip de.text) now else isoOfDT now
        | none => isoOfDT now
      else isoOfDT now,
    content := none }

/-- A node whose title selector matches a truthy element containing only
whitespace text, with a perfectly good link. -/
def c2WsNode : ArticleNode :=
  ⟨some ⟨1, [" "], none⟩, some ⟨1, ["go"], some "https://finance.yahoo.com/story/1"⟩,
   none, none⟩

/-- C2 counterexample: the claim says a node whose title sub-selector
"yields empty text" is skipped and every produced stub has a non-empty
title; but the code only skips when the title *element* is missing (or
childless, via bs4 falsiness), so a whitespace-only title element
produces a stub whose title is the empty string. -/
theorem c2_counterexample :
    (scrapeArticles "yahoo_finance" cfg0 dt0 [c2WsNode]).map Article.title = [""] ∧
      (scrapeArticles "yahoo_finance" cfg0 dt0 [c2WsNode]).length = 1 := ⟨rfl, rfl⟩

/-- Well-formed fixture node number `i`. -/
def fixNode (i : Nat) : ArticleNode :=
  ⟨some ⟨1, ["Story " ++ toString i], none⟩,
   some ⟨1, ["link"], some ("https://finance.yahoo.com/story/" ++ toString i)⟩,
   some ⟨1, [" Summary "], none⟩, none⟩

/-- Malformed fixture node: the title sub-selector does not match. -/
def fixBadNode : ArticleNode :=
  ⟨none, some ⟨1, ["link"], some "https://finance.yahoo.com/story/bad"⟩,
   some ⟨1, ["s"], none⟩, none⟩

/-- C2 amended: the extractor produces one stub per candidate node in
document order, skipping exactly those nodes whose title sub-selector
fails to match (returns no element or a falsy one) and those without a
resolvable link href; a matched title with empty text is *not* skipped
and yields a stub with an empty title.  The 5-good-plus-1-titleless
fixture still yields exactly 5 stubs in document order. -/
theorem c2_extract_amended (sid : String) (cfg : SourceConfig) (now : DT) :
    (∀ nodes, scrapeArticles sid cfg now nodes =
        (nodes.filter nodeKept).map (keptStub sid cfg now))
    ∧ (scrapeArticles "yahoo_finance" cfg0 dt0
        [fixNode 1, fixNode 2, fixNode 3, fixBadNode, fixNode 4, fixNode 5]).map
          Article.title =
        ["Story 1", "Story 2", "Story 3", "Story 4", "Story 5"] := by
  constructor
  · intro nodes
    induction nodes with
    | nil => rfl
    | cons n ns ih =>
      simp only [scrapeArticles, List.filterMap_cons, List.filter_cons] at *
      rcases n with ⟨tE, lE, sE, dE⟩
      cases tE with
      | none => simpa [nodeToStub, nodeKept, selTruthy] using ih
      | some te =>
        by_cases ht : te.childCount = 0
        · simpa [nodeToStub, nodeKept, selTruthy, El.truthy, ht] using ih
        · cases lE with
          | none => simpa [nodeToStub, nodeKept, selTruthy, El.truthy, ht] using ih
          | some le =>
            by_cases hl : le.childCount = 0
            · simpa [nodeToStub, nodeKept, selTruthy, El.truthy, ht, hl] using ih
            · cases hh : le.href with
              | none =>
                simpa [nodeToStub, nodeKept, selTruthy, El.truthy, ht, hl, hh] using ih
              | some link =>
                simp [nodeToStub, nodeKept, selTruthy, El.truthy, ht, hl, hh, keptStub, ih]
  · rfl

/-! ## Claim C3: URL resolution and the http/https invariant -/

/-- A node whose link's href carries an explicit non-http scheme. -/
def c3MailtoNode : ArticleNode :=
  ⟨some ⟨1, ["Contact us"], none⟩, some ⟨1, ["c"], some "mailto:tips@example.com"⟩,
   none, none⟩

/-- C3 counterexample: an href with an explicit foreign scheme passes
through `urljoin` unchanged, so the produced stub's url is
`mailto:tips@example.com` — absolute, but its scheme is neither `http`
nor `https`, against the claimed invariant. -/
theorem c3_counterexample :
    (scrapeArticles "yahoo_finance" cfg0 dt0 [c3MailtoNode]).map Article.url =
        ["mailto:tips@example.com"] ∧
      (scrapeArticles "yahoo_finance" cfg0 dt0 [c3MailtoNode]).map
          (fun a => startsWithS a.url "http://" || startsWithS a.url "https://") =
        [false] := ⟨rfl, rfl⟩

theorem startsWithL_self_append (p t : List Char) : startsWithL p (p ++ t) = true := by
  induction p with
  | nil => rfl
  | cons c cs ih => simp [startsWithL, ih]

theorem startsWithL_exists_append {p s : List Char} (h : startsWithL p s = true) :
    ∃ t, s = p ++ t := by
  induction p generalizing s with
  | nil => exact ⟨s, rfl⟩
  | cons c cs ih =>
    cases s with
    | nil => simp [startsWithL] at h
    | cons a as =>
      rw [startsWithL, Bool.and_eq_true, beq_iff_eq] at h
      obtain ⟨rfl, h2⟩ := h
      obtain ⟨t, rfl⟩ := ih h2
      exact ⟨t, rfl⟩

/-- Splitting the scheme off `https://…` always yields `https`. -/
theorem splitSchemeL_https (t : List Char) :
    splitSchemeL ("https://".data ++ t) = some ("https".data, '/' :: '/' :: t) := rfl

/-- Splitting the scheme off `http://…` always yields `http`. -/
theorem splitSchemeL_http (t : List Char) :
    splitSchemeL ("http://".data ++ t) = some ("http".data, '/' :: '/' :: t) := rfl

/-- `unsplitUrl` with scheme `https` produces a `https:`-prefixed string. -/
theorem startsWithS_unsplit_https (nl p : List Char) :
    startsWithS (unsplitUrl "https".data nl p) "https:" = true := by
  unfold unsplitUrl startsWithS
  by_cases h : nl.isEmpty <;>
    · simp only [h]
      exact startsWithL_self_append "https:".data _

/-- C3 amended: hrefs already absolute with an http(s) scheme are kept;
any other href is resolved with `urljoin` against the source's base URL;
the claim's example resolution holds; and whenever the href carries *no*
explicit scheme and the base is an `https://` URL, the resolved stub URL
is absolute with scheme `https`.  The invariant can only fail for hrefs
that carry an explicit non-http(s) scheme, which pass through unchanged
(see the counterexample). -/
theorem c3_url_amended :
    (resolveLink "https://example.com/news/" "/story/123" = "https://example.com/story/123")
    ∧ (∀ base link : String, startsWithS base "https://" = true →
        splitSchemeL link.data = none →
        startsWithS (resolveLink base link) "https:" = true)
    ∧ (∀ (base link : String) (bsch brest lsch lrest : List Char),
        splitSchemeL base.data = some (bsch, brest) →
        splitSchemeL link.data = some (lsch, lrest) → lsch ≠ bsch →
        startsWithS link "http://" = false → startsWithS link "https://" = false →
        resolveLink base link = link) := by
  refine ⟨rfl, ?_, ?_⟩
  · intro base link hb hl
    obtain ⟨t, ht⟩ := startsWithL_exists_append (p := "https://".data) hb
    have hbase : base.data ≠ [] := by rw [ht]; simp
    have hbne : base ≠ "" := by
      intro h; rw [h] at hbase; exact hbase rfl
    have hsplit : splitSchemeL base.data = some ("https".data, '/' :: '/' :: t) := by
      rw [ht]; exact splitSchemeL_https t
    have hlh1 : startsWithS link "http://" = false := by
      by_contra h
      rw [Bool.not_eq_false] at h
      obtain ⟨u, hu⟩ := startsWithL_exists_append (p := "http://".data) h
      rw [hu, splitSchemeL_http] at hl
      simp at hl
    have hlh2 : startsWithS link "https://" = false := by
      by_contra h
      rw [Bool.not_eq_false] at h
      obtain ⟨u, hu⟩ := startsWithL_exists_append (p := "https://".data) h
      rw [hu, splitSchemeL_https] at hl
      simp at hl
    unfold resolveLink
    rw [hlh1, hlh2]
    simp only [Bool.or_self, Bool.false_eq_true, if_false]
    unfold urljoinModel
    rw [if_neg (by simp [hbne])]
    by_cases hle : link = ""
    · rw [if_pos (by simp [hle])]
      rw [show base = String.mk base.data from rfl, ht]
      unfold startsWithS
      exact startsWithL_self_append "https:".data _
    · rw [if_neg (by simp [hle])]
      rw [hsplit, hl]
      simp only [Option.getD_some, Option.getD_none]
      rw [if_neg (by simp [usesRelative])]
      by_cases h1 : ((splitNetlocL link.data).1).isEmpty
      · by_cases h2 : ((splitNetlocL link.data).2).isEmpty
        · rw [if_neg (by simp [h1]), if_pos h2]
          exact startsWithS_unsplit_https _ _
        · rw [if_neg (by simp [h1]), if_neg h2]
          exact startsWithS_unsplit_https _ _
      · rw [if_pos (by simp at h1 ⊢; exact h1)]
        exact startsWithS_unsplit_https _ _
  · intro base link bsch brest lsch lrest hbs hls hne hh1 hh2
    unfold resolveLink
    rw [hh1, hh2]
    simp only [Bool.or_self, Bool.false_eq_true, if_false]
    unfold urljoinModel
    have hbne : base ≠ "" := by
      intro h; rw [h] at hbs; simp [splitSchemeL] at hbs
    have hlne : link ≠ "" := by
      intro h; rw [h] at hls; simp [splitSchemeL] at hls
    rw [if_neg (by simp [hbne]), if_neg (by simp [hlne]), hbs, hls]
    simp only [Option.getD_some]
    rw [if_pos (Or.inl hne)]

/-- Witness for C3 (amended): a schemeless relative href against an
`https://` base resolves to an `https:`-prefixed absolute URL. -/
theorem c3_url_amended_witness :
    startsWithS (resolveLink "https://finance.yahoo.com/news/" "story/abc.html") "https:" =
      true :=
  c3_url_amended.2.1 "https://finance.yahoo.com/news/" "story/abc.html" rfl rfl

/-! ## Claim C4: per-source failure isolation -/

/-- C4: a source whose scrape raises is equivalent to a source
contributing zero articles — the run's full result (returned list and
persisted value alike) is unchanged if the failing source is replaced by
one returning an empty list, and the sibling sources' articles are
untouched.  No exception escapes: the `Except.error` is consumed inside
the orchestrator (the model's total `match` mirrors the
`try/except` around `future.result()`). -/
theorem c4_source_failure_isolated
    (registry : List (String × SourceConfig))
    (scrapeF scrapeG : String → SourceConfig → Except String (List Article))
    (fetchDoc : String → Option PageDoc) (sources : Option (List String))
    (fc sv : Bool) (x : String)
    (hagree : ∀ s cfg, s ≠ x → scrapeF s cfg = scrapeG s cfg)
    (hfail : ∀ cfg, ∃ e, scrapeF x cfg = .error e)
    (hzero : ∀ cfg, scrapeG x cfg = .ok []) :
    fetch_news registry scrapeF fetchDoc sources fc sv =
      fetch_news registry scrapeG fetchDoc sources fc sv := by
  have hfun : (fun sid =>
      match registry.lookup sid with
      | some cfg =>
        match scrapeF sid cfg with
        | .ok arts => arts
        | .error _ => []
      | none => ([] : List Article)) =
      (fun sid =>
      match registry.lookup sid with
      | some cfg =>
        match scrapeG sid cfg with
        | .ok arts => arts
        | .error _ => []
      | none => ([] : List Article)) := by
    funext sid
    cases hl : registry.lookup sid with
    | none => rfl
    | some cfg =>
      by_cases hs : sid = x
      · subst hs
        obtain ⟨e, he⟩ := hfail cfg
        simp [he, hzero cfg]
      · simp [hagree sid cfg hs]
  have hcol : collectArticles registry scrapeF sources =
      collectArticles registry scrapeG sources := by
    unfold collectArticles
    rw [hfun]
  unfold fetch_news
  rw [hcol]

/-- A source that always succeeds with one fixed article (source "a"). -/
def c4ArtA : Article :=
  ⟨"a", "Yahoo Finance", "A story", "", "https://a.example/1", "2024-01-02T00:00:00", none⟩

/-- A source that always succeeds with one fixed article (source "c"). -/
def c4ArtC : Article :=
  ⟨"c", "Yahoo Finance", "C story", "", "https://c.example/1", "2024-01-01T00:00:00", none⟩

/-- Three-source registry for the C4 scenario. -/
def c4Reg : List (String × SourceConfig) := [("a", cfg0), ("b", cfg0), ("c", cfg0)]

/-- Scraper where source "b" always raises. -/
def c4F : String → SourceConfig → Except String (List Article) := fun s _ =>
  if s = "b" then .error "connection reset" else if s = "a" then .ok [c4ArtA] else .ok [c4ArtC]

/-- Same scraper with "b" returning zero articles instead of raising. -/
def c4G : String → SourceConfig → Except String (List Article) := fun s _ =>
  if s = "b" then .ok [] else if s = "a" then .ok [c4ArtA] else .ok [c4ArtC]

/-- Witness for C4: three sources of which "b" always fails — the run
equals the run where "b" yields nothing, and the result is exactly the
two succeeding sources' articles. -/
theorem c4_source_failure_isolated_witness :
    fetch_news c4Reg c4F (fun _ => none) none false false =
      fetch_news c4Reg c4G (fun _ => none) none false false ∧
    (fetch_news c4Reg c4F (fun _ => none) none false false).1 = [c4ArtA, c4ArtC] := by
  constructor
  · exact c4_source_failure_isolated c4Reg c4F c4G (fun _ => none) none false false "b"
      (fun s cfg hs => by simp [c4F, c4G, hs])
      (fun cfg => ⟨"connection reset", by simp [c4F]⟩)
      (fun cfg => by simp [c4G])
  · rfl

/-! ## Claim C5: descending stable sort by `publishedAt` -/

theorem ltChars_irrefl (l : List Char) : ltChars l l = false := by
  induction l with
  | nil => rfl
  | cons a as ih => simp [ltChars, ih]

theorem ltChars_trans {a b c : List Char} (hab : ltChars a b = true)
    (hbc : ltChars b c = true) : ltChars a c = true := by
  induction a generalizing b c with
  | nil =>
    cases b with
    | nil => simp [ltChars] at hab
    | cons y ys =>
      cases c with
      | nil => simp [ltChars] at hbc
      | cons z zs => rfl
  | cons x xs ih =>
    cases b with
    | nil => simp [ltChars] at hab
    | cons y ys =>
      cases c with
      | nil => simp [ltChars] at hbc
      | cons z zs =>
        rw [ltChars] at hab hbc ⊢
        by_cases hxy : x.toNat < y.toNat
        · by_cases hyz : y.toNat < z.toNat
          · rw [if_pos (Nat.lt_trans hxy hyz)]
          · rw [if_neg hyz] at hbc
            by_cases hzy : z.toNat < y.toNat
            · rw [if_pos hzy] at hbc; exact absurd hbc (by simp)
            · have hyz2 : y.toNat = z.toNat := Nat.le_antisymm
                (Nat.le_of_not_lt hzy) (Nat.le_of_not_lt hyz)
              rw [if_pos (hyz2 ▸ hxy)]
        · rw [if_neg hxy] at hab
          by_cases hyx : y.toNat < x.toNat
          · rw [if_pos hyx] at hab; exact absurd hab (by simp)
          · have hxy2 : x.toNat = y.toNat := Nat.le_antisymm
              (Nat.le_of_not_lt hyx) (Nat.le_of_not_lt hxy)
            by_cases hyz : y.toNat < z.toNat
            · rw [if_pos (hxy2 ▸ hyz)]
            · rw [if_neg hyz] at hbc
              by_cases hzy : z.toNat < y.toNat
              · rw [if_pos hzy] at hbc; exact absurd hbc (by simp)
              · rw [if_neg (hxy2 ▸ hyz), if_neg (hxy2 ▸ hzy)]
                rw [if_neg hyx] at hab
                rw [if_neg hzy] at hbc
                exact ih hab hbc

theorem ltChars_connex {a b : List Char} (hab : ltChars a b = false)
    (hba : ltChars b a = false) : a = b := by
  induction a generalizing b with
  | nil =>
    cases b with
    | nil => rfl
    | cons y ys => simp [ltChars] at hab
  | cons x xs ih =>
    cases b with
    | nil => simp [ltChars] at hba
    | cons y ys =>
      rw [ltChars] at hab hba
      by_cases hxy : x.toNat < y.toNat
      · rw [if_pos hxy] at hab; exact absurd hab (by simp)
      · by_cases hyx : y.toNat < x.toNat
        · rw [if_pos hyx] at hba; exact absurd hba (by simp)
        · have hv : x.toNat = y.toNat := Nat.le_antisymm
            (Nat.le_of_not_lt hyx) (Nat.le_of_not_lt hxy)
          have hx : x = y := by
            have hvv : x.val.toNat = y.val.toNat := hv
            exact Char.ext (UInt32.toNat.inj hvv)
          rw [if_neg hxy, if_neg hyx] at hab hba
          rw [hx, ih hab hba]

/-- `leStr` is total. -/
theorem leStr_total (a b : String) : leStr a b = true ∨ leStr b a = true := by
  unfold leStr
  by_cases h : ltChars b.data a.data = true
  · right
    by_cases h2 : ltChars a.data b.data = true
    · exact absurd (ltChars_irrefl a.data)
        (by rw [ltChars_trans h2 h]; simp)
    · simp [h2]
  · left; simp [h]

/-- `leStr` is transitive. -/
theorem leStr_trans {a b c : String} (hab : leStr a b = true)
    (hbc : leStr b c = true) : leStr a c = true := by
  unfold leStr at *
  have hba : ltChars b.data a.data = false := by simpa using hab
  have hcb : ltChars c.data b.data = false := by simpa using hbc
  by_cases hca : ltChars c.data a.data = true
  · exfalso
    by_cases habd : ltChars a.data b.data = true
    · rw [ltChars_trans hca habd] at hcb
      exact absurd hcb (by simp)
    · have heq : a.data = b.data := ltChars_connex (by simpa using habd) hba
      rw [heq] at hca
      rw [hca] at hcb
      exact absurd hcb (by simp)
  · simp [hca]

/-- Equal strings compare `leStr`-less-or-equal. -/
theorem leStr_refl (a : String) : leStr a a = true := by
  simp [leStr, ltChars_irrefl]

/-- Filtering on one key commutes with ordered insertion: the inserted
element lands in front of the equal-keyed elements already present
(every element it skips has a strictly larger key). -/
theorem filter_orderedInsert_key (k : String) (a : Article) (l : List Article) :
    (List.orderedInsert (fun x y : Article => leStr y.publishedAt x.publishedAt = true) a
        l).filter (fun x => x.publishedAt == k) =
      (if a.publishedAt == k then [a] else []) ++
        l.filter (fun x => x.publishedAt == k) := by
  induction l with
  | nil =>
    by_cases hak : (a.publishedAt == k) = true <;>
      simp [List.orderedInsert, List.filter, hak]
  | cons b bs ih =>
    rw [List.orderedInsert]
    by_cases hab : leStr b.publishedAt a.publishedAt = true
    · rw [if_pos hab]
      by_cases hak : (a.publishedAt == k) = true <;>
        simp [List.filter_cons, hak]
    · rw [if_neg hab, List.filter_cons, ih]
      by_cases hbk : (b.publishedAt == k) = true
      · by_cases hak : (a.publishedAt == k) = true
        · exfalso
          have ha : a.publishedAt = k := by simpa using hak
          have hb : b.publishedAt = k := by simpa using hbk
          exact hab (by rw [ha, hb]; exact leStr_refl k)
        · simp [hbk, hak]
      · simp [hbk]

/-- Stability of the descending sort: the subsequence of articles with
any given `publishedAt` key is preserved in its original order. -/
theorem filter_sortDesc (l : List Article) (k : String) :
    (sortDesc l).filter (fun x => x.publishedAt == k) =
      l.filter (fun x => x.publishedAt == k) := by
  induction l with
  | nil => rfl
  | cons a as ih =>
    unfold sortDesc at *
    rw [List.insertionSort, filter_orderedInsert_key, ih, List.filter_cons]
    by_cases hak : (a.publishedAt == k) = true <;> simp [hak]

/-- Fixture article dated January. -/
def artJan : Article :=
  ⟨"cnbc", "CNBC", "January story", "", "https://cnbc.example/1",
   "2024-01-01T00:00:00", none⟩

/-- Fixture article dated February. -/
def artFeb : Article :=
  ⟨"cnbc", "CNBC", "February story", "", "https://cnbc.example/2",
   "2024-02-01T00:00:00", none⟩

/-- Fixture article dated March. -/
def artMar : Article :=
  ⟨"cnbc", "CNBC", "March story", "", "https://cnbc.example/3",
   "2024-03-01T00:00:00", none⟩

/-- C5: the orchestrator returns exactly the stable descending sort (by
lexicographic comparison of the `publishedAt` strings) of the merged
stub list: the output is sorted descending, is a permutation of the
collected list, preserves the original order of equal keys, and on the
January/March/February fixture yields March, February, January. -/
theorem c5_sorted_descending :
    (∀ (registry : List (String × SourceConfig))
       (scrape : String → SourceConfig → Except String (List Article))
       (fetchDoc : String → Option PageDoc) (sources : Option (List String))
       (fc sv : Bool),
        (fetch_news registry scrape fetchDoc sources fc sv).1 = sortDesc
          (if fc && !(collectArticles registry scrape sources).isEmpty then
            (collectArticles registry scrape sources).map (fetch_article_content fetchDoc)
           else collectArticles registry scrape sources))
    ∧ (∀ l : List Article,
        List.Sorted (fun a b : Article => leStr b.publishedAt a.publishedAt = true)
          (sortDesc l))
    ∧ (∀ l : List Article, List.Perm (sortDesc l) l)
    ∧ (∀ (l : List Article) (k : String),
        (sortDesc l).filter (fun x => x.publishedAt == k) =
          l.filter (fun x => x.publishedAt == k))
    ∧ sortDesc [artJan, artMar, artFeb] = [artMar, artFeb, artJan] := by
  refine ⟨fun _ _ _ _ _ _ => rfl, ?_, fun l => List.perm_insertionSort _ l,
    filter_sortDesc, by decide⟩
  intro l
  haveI : IsTotal Article (fun a b : Article => leStr b.publishedAt a.publishedAt = true) :=
    ⟨fun a b => leStr_total b.publishedAt a.publishedAt⟩
  haveI : IsTrans Article (fun a b : Article => leStr b.publishedAt a.publishedAt = true) :=
    ⟨fun _ _ _ hab hbc => leStr_trans hbc hab⟩
  exact List.sorted_insertionSort _ l

/-! ## Claim C9: persist flag -/

/-- C9 counterexample: with `persist = true` but an empty final list
(here: the only source fails), nothing at all is written to the sink —
the claim requires the empty list to be written. -/
theorem c9_counterexample :
    (fetch_news [("yahoo_finance", cfg0)] (fun _ _ => .error "boom") (fun _ => none)
        none false true).2 = none ∧
      (fetch_news [("yahoo_finance", cfg0)] (fun _ _ => .error "boom") (fun _ => none)
        none false true).1 = [] := ⟨rfl, rfl⟩

/-- C9 amended: the returned list is the same whatever the persist flag;
when persist is true and the final list is nonempty the full final list
is written to the sink; but when the final list is empty nothing is
written (the source guards the write with `if save and all_articles`). -/
theorem c9_persist_amended (registry : List (String × SourceConfig))
    (scrape : String → SourceConfig → Except String (List Article))
    (fetchDoc : String → Option PageDoc) (sources : Option (List String)) (fc : Bool) :
    (∀ s1 s2 : Bool, (fetch_news registry scrape fetchDoc sources fc s1).1 =
        (fetch_news registry scrape fetchDoc sources fc s2).1)
    ∧ (∀ sv : Bool, (fetch_news registry scrape fetchDoc sources fc sv).1 ≠ [] →
        sv = true →
        (fetch_news registry scrape fetchDoc sources fc sv).2 =
          some ((fetch_news registry scrape fetchDoc sources fc sv).1))
    ∧ (∀ sv : Bool, (fetch_news registry scrape fetchDoc sources fc sv).1 = [] →
        (fetch_news registry scrape fetchDoc sources fc sv).2 = none) := by
  refine ⟨fun s1 s2 => rfl, ?_, ?_⟩
  · intro sv hne hsv
    subst hsv
    have key : (fetch_news registry scrape fetchDoc sources fc true).2 =
        (if !((fetch_news registry scrape fetchDoc sources fc true).1).isEmpty then
          some ((fetch_news registry scrape fetchDoc sources fc true).1)
         else none) := rfl
    rw [key, if_pos (by simp [List.isEmpty_iff, hne])]
  · intro sv hempty
    have key : (fetch_news registry scrape fetchDoc sources fc sv).2 =
        (if sv && !((fetch_news registry scrape fetchDoc sources fc sv).1).isEmpty then
          some ((fetch_news registry scrape fetchDoc sources fc sv).1)
         else none) := rfl
    rw [key, if_neg (by simp [hempty])]

/-- Witness for C9 (amended): one succeeding source with one article,
persist on — the article list is written; and the returned list matches
the persist-off run. -/
theorem c9_persist_amended_witness :
    (fetch_news [("yahoo_finance", cfg0)] (fun _ _ => .ok [c7Art]) (fun _ => none)
        none false true).2 =
      some ((fetch_news [("yahoo_finance", cfg0)] (fun _ _ => .ok [c7Art]) (fun _ => none)
        none false true).1) ∧
    (fetch_news [("yahoo_finance", cfg0)] (fun _ _ => .ok [c7Art]) (fun _ => none)
        none false true).1 =
      (fetch_news [("yahoo_finance", cfg0)] (fun _ _ => .ok [c7Art]) (fun _ => none)
        none false false).1 := by
  constructor
  · exact (c9_persist_amended [("yahoo_finance", cfg0)] (fun _ _ => .ok [c7Art])
      (fun _ => none) none false).2.1 true (by decide) rfl
  · exact (c9_persist_amended [("yahoo_finance", cfg0)] (fun _ _ => .ok [c7Art])
      (fun _ => none) none false).1 true false

/-! ## Claim C1: relative "ago" dates -/

theorem parse_date_ago_minute (raw : String) (now : DT) (ds : List Char) (suf : String)
    (hne : ds ≠ []) (hds : ds.all Char.isDigit = true)
    (hform : pyStrip (lowerStr raw) = String.mk ds ++ suf)
    (hsufd : digitsOf suf = [])
    (hago : hasSub suf "ago" = true)
    (hmin : (hasSub suf "minute" || hasSub suf "min") = true) :
    parse_date raw now = isoOfMin (dtMinutes now - ((digitsVal ds : Nat) : Int)) := by
  unfold parse_date
  rw [hform]
  unfold parseDateCore
  rw [hasSub_digit_drop ds suf "ago" hds (by decide) (by decide),
      hasSub_digit_drop ds suf "minute" hds (by decide) (by decide),
      hasSub_digit_drop ds suf "min" hds (by decide) (by decide),
      extractInt_mk_append ds suf hne hds hsufd, hago, hmin]
  simp

theorem parse_date_ago_hour (raw : String) (now : DT) (ds : List Char) (suf : String)
    (hne : ds ≠ []) (hds : ds.all Char.isDigit = true)
    (hform : pyStrip (lowerStr raw) = String.mk ds ++ suf)
    (hsufd : digitsOf suf = [])
    (hago : hasSub suf "ago" = true)
    (hminu : hasSub suf "minute" = false) (hmin : hasSub suf "min" = false)
    (hhour : (hasSub suf "hour" || hasSub suf "hr") = true) :
    parse_date raw now = isoOfMin (dtMinutes now - ((60 * digitsVal ds : Nat) : Int)) := by
  unfold parse_date
  rw [hform]
  unfold parseDateCore
  rw [hasSub_digit_drop ds suf "ago" hds (by decide) (by decide),
      hasSub_digit_drop ds suf "minute" hds (by decide) (by decide),
      hasSub_digit_drop ds suf "min" hds (by decide) (by decide),
      hasSub_digit_drop ds suf "hour" hds (by decide) (by decide),
      hasSub_digit_drop ds suf "hr" hds (by decide) (by decide),
      extractInt_mk_append ds suf hne hds hsufd, hago, hminu, hmin, hhour]
  simp

theorem parse_date_ago_day (raw : String) (now : DT) (ds : List Char) (suf : String)
    (hne : ds ≠ []) (hds : ds.all Char.isDigit = true)
    (hform : pyStrip (lowerStr raw) = String.mk ds ++ suf)
    (hsufd : digitsOf suf = [])
    (hago : hasSub suf "ago" = true)
    (hminu : hasSub suf "minute" = false) (hmin : hasSub suf "min" = false)
    (hhour : hasSub suf "hour" = false) (hhr : hasSub suf "hr" = false)
    (hday : hasSub suf "day" = true) :
    parse_date raw now = isoOfMin (dtMinutes now - ((1440 * digitsVal ds : Nat) : Int)) := by
  unfold parse_date
  rw [hform]
  unfold parseDateCore
  rw [hasSub_digit_drop ds suf "ago" hds (by decide) (by decide),
      hasSub_digit_drop ds suf "minute" hds (by decide) (by decide),
      hasSub_digit_drop ds suf "min" hds (by decide) (by decide),
      hasSub_digit_drop ds suf "hour" hds (by decide) (by decide),
      hasSub_digit_drop ds suf "hr" hds (by decide) (by decide),
      hasSub_digit_drop ds suf "day" hds (by decide) (by decide),
      extractInt_mk_append ds suf hne hds hsufd, hago, hminu, hmin, hhour, hhr, hday]
  simp

theorem parse_date_ago_week (raw : String) (now : DT) (ds : List Char) (suf : String)
    (hne : ds ≠ []) (hds : ds.all Char.isDigit = true)
    (hform : pyStrip (lowerStr raw) = String.mk ds ++ suf)
    (hsufd : digitsOf suf = [])
    (hago : hasSub suf "ago" = true)
    (hminu : hasSub suf "minute" = false) (hmin : hasSub suf "min" = false)
    (hhour : hasSub suf "hour" = false) (hhr : hasSub suf "hr" = false)
    (hday : hasSub suf "day" = false)
    (hweek : hasSub suf "week" = true) :
    parse_date raw now = isoOfMin (dtMinutes now - ((10080 * digitsVal ds : Nat) : Int)) := by
  unfold parse_date
  rw [hform]
  unfold parseDateCore
  rw [hasSub_digit_drop ds suf "ago" hds (by decide) (by decide),
      hasSub_digit_drop ds suf "minute" hds (by decide) (by decide),
      hasSub_digit_drop ds suf "min" hds (by decide) (by decide),
      hasSub_digit_drop ds suf "hour" hds (by decide) (by decide),
      hasSub_digit_drop ds suf "hr" hds (by decide) (by decide),
      hasSub_digit_drop ds suf "day" hds (by decide) (by decide),
      hasSub_digit_drop ds suf "week" hds (by decide) (by decide),
      extractInt_mk_append ds suf hne hds hsufd, hago, hminu, hmin, hhour, hhr, hday, hweek]
  simp

theorem parse_date_ago_month (raw : String) (now : DT) (ds : List Char) (suf : String)
    (hne : ds ≠ []) (hds : ds.all Char.isDigit = true)
    (hform : pyStrip (lowerStr raw) = String.mk ds ++ suf)
    (hsufd : digitsOf suf = [])
    (hago : hasSub suf "ago" = true)
    (hminu : hasSub suf "minute" = false) (hmin : hasSub suf "min" = false)
    (hhour : hasSub suf "hour" = false) (hhr : hasSub suf "hr" = false)
    (hday : hasSub suf "day" = false) (hweek : hasSub suf "week" = false)
    (hmon : hasSub suf "month" = true) :
    parse_date raw now = isoOfMin (dtMinutes now - ((43200 * digitsVal ds : Nat) : Int)) := by
  unfold parse_date
  rw [hform]
  unfold parseDateCore
  rw [hasSub_digit_drop ds suf "ago" hds (by decide) (by decide),
      hasSub_digit_drop ds suf "minute" hds (by decide) (by decide),
      hasSub_digit_drop ds suf "min" hds (by decide) (by decide),
      hasSub_digit_drop ds suf "hour" hds (by decide) (by decide),
      hasSub_digit_drop ds suf "hr" hds (by decide) (by decide),
      hasSub_digit_drop ds suf "day" hds (by decide) (by decide),
      hasSub_digit_drop ds suf "week" hds (by decide) (by decide),
      hasSub_digit_drop ds suf "month" hds (by decide) (by decide),
      extractInt_mk_append ds suf hne hds hsufd,
      hago, hminu, hmin, hhour, hhr, hday, hweek, hmon]
  simp

/-- The supported relative-date units of the claim. -/
inductive AgoUnit where
  | minute
  | hour
  | day
  | week
  | month
deriving DecidableEq, Repr

/-- Duration of one unit, in minutes (a month approximated as 30 days). -/
def AgoUnit.minutes : AgoUnit → Nat
  | .minute => 1
  | .hour => 60
  | .day => 1440
  | .week => 10080
  | .month => 43200

/-- The unit words (singular, plural and the short forms the source
recognises) for each supported unit. -/
def AgoUnit.words : AgoUnit → List String
  | .minute => ["minute", "minutes", "min", "mins"]
  | .hour => ["hour", "hours", "hr", "hrs"]
  | .day => ["day", "days"]
  | .week => ["week", "weeks"]
  | .month => ["month", "months"]

/-- C1: for every string of the form `"N <unit> ago"` (lower-cased and
stripped) with a supported unit word and a nonempty digit run `N`, the
normalizer returns `now` minus `N` units, a month counting as 30 days.
The digit run holds the only digits of the string, so the code's
"join all digits" extraction agrees with "the first integer". -/
theorem c1_relative_ago (raw : String) (now : DT) (u : AgoUnit) (w : String)
    (ds : List Char) (hw : w ∈ u.words) (hne : ds ≠ [])
    (hds : ds.all Char.isDigit = true)
    (hform : pyStrip (lowerStr raw) = String.mk ds ++ (" " ++ w ++ " ago")) :
    parse_date raw now =
      isoOfMin (dtMinutes now - ((u.minutes * digitsVal ds : Nat) : Int)) := by
  cases u with
  | minute =>
    simp only [AgoUnit.words, List.mem_cons, List.mem_singleton] at hw
    simp only [AgoUnit.minutes, Nat.one_mul]
    rcases hw with rfl | rfl | rfl | rfl | h
    · exact parse_date_ago_minute raw now ds _ hne hds hform (by decide) (by decide)
        (by decide)
    · exact parse_date_ago_minute raw now ds _ hne hds hform (by decide) (by decide)
        (by decide)
    · exact parse_date_ago_minute raw now ds _ hne hds hform (by decide) (by decide)
        (by decide)
    · exact parse_date_ago_minute raw now ds _ hne hds hform (by decide) (by decide)
        (by decide)
    · exact absurd h (by simp)
  | hour =>
    simp only [AgoUnit.words, List.mem_cons, List.mem_singleton] at hw
    simp only [AgoUnit.minutes]
    rcases hw with rfl | rfl | rfl | rfl | h
    · exact parse_date_ago_hour raw now ds _ hne hds hform (by decide) (by decide)
        (by decide) (by decide) (by decide)
    · exact parse_date_ago_hour raw now ds _ hne hds hform (by decide) (by decide)
        (by decide) (by decide) (by decide)
    · exact parse_date_ago_hour raw now ds _ hne hds hform (by decide) (by decide)
        (by decide) (by decide) (by decide)
    · exact parse_date_ago_hour raw now ds _ hne hds hform (by decide) (by decide)
        (by decide) (by decide) (by decide)
    · exact absurd h (by simp)
  | day =>
    simp only [AgoUnit.words, List.mem_cons, List.mem_singleton] at hw
    simp only [AgoUnit.minutes]
    rcases hw with rfl | rfl | h
    · exact parse_date_ago_day raw now ds _ hne hds hform (by decide) (by decide)
        (by decide) (by decide) (by decide) (by decide) (by decide)
    · exact parse_date_ago_day raw now ds _ hne hds hform (by decide) (by decide)
        (by decide) (by decide) (by decide) (by decide) (by decide)
    · exact absurd h (by simp)
  | week =>
    simp only [AgoUnit.words, List.mem_cons, List.mem_singleton] at hw
    simp only [AgoUnit.minutes]
    rcases hw with rfl | rfl | h
    · exact parse_date_ago_week raw now ds _ hne hds hform (by decide) (by decide)
        (by decide) (by decide) (by decide) (by decide) (by decide) (by decide)
    · exact parse_date_ago_week raw now ds _ hne hds hform (by decide) (by decide)
        (by decide) (by decide) (by decide) (by decide) (by decide) (by decide)
    · exact absurd h (by simp)
  | month =>
    simp only [AgoUnit.words, List.mem_cons, List.mem_singleton] at hw
    simp only [AgoUnit.minutes]
    rcases hw with rfl | rfl | h
    · exact parse_date_ago_month raw now ds _ hne hds hform (by decide) (by decide)
        (by decide) (by decide) (by decide) (by decide) (by decide) (by decide)
        (by decide)
    · exact parse_date_ago_month raw now ds _ hne hds hform (by decide) (by decide)
        (by decide) (by decide) (by decide) (by decide) (by decide) (by decide)
        (by decide)
    · exact absurd h (by simp)

/-- Witness for C1: `"5 minutes ago"` normalizes to `now` minus five
minutes, and `"2 months ago"` to `now` minus sixty days. -/
theorem c1_relative_ago_witness :
    parse_date "5 minutes ago" dt0 =
        isoOfMin (dtMinutes dt0 - ((AgoUnit.minute.minutes * digitsVal ['5'] : Nat) : Int)) ∧
      parse_date "2 months ago" dt0 =
        isoOfMin (dtMinutes dt0 - ((AgoUnit.month.minutes * digitsVal ['2'] : Nat) : Int)) := by
  constructor
  · exact c1_relative_ago "5 minutes ago" dt0 AgoUnit.minute "minutes" ['5']
      (by decide) (by decide) (by decide) (by decide)
  · exact c1_relative_ago "2 months ago" dt0 AgoUnit.month "months" ['2']
      (by decide) (by decide) (by decide) (by decide)

/-! ## Claim C8: total fallback to `now` -/

/-- C8: the date normalizer is total by construction (every Python
exception path is modelled as an explicit branch returning `now`), and
when the string has no relative phrase, no "today"/"yesterday" literal,
and matches none of the absolute formats, it falls back to `now`. -/
theorem c8_fallback_total (raw : String) (now : DT)
    (h1 : hasSub (pyStrip (lowerStr raw)) "ago" = false)
    (h2 : hasSub (pyStrip (lowerStr raw)) "today" = false)
    (h3 : hasSub (pyStrip (lowerStr raw)) "yesterday" = false)
    (h4 : tryFormats (pyStrip (lowerStr raw)) = none) :
    parse_date raw now = isoOfDT now := by
  unfold parse_date parseDateCore
  rw [h1, h2, h3, h4]
  simp

/-- Witness for C8: `normalize("not a date", now) = now`. -/
theorem c8_fallback_total_witness : parse_date "not a date" dt0 = isoOfDT dt0 :=
  c8_fallback_total "not a date" dt0 (by decide) (by decide) (by decide) (by decide)

/-! ## Claim C10: year-1900 replacement -/

/-- C10: whenever the absolute-format stage parses the (lower-cased,
stripped) string to a date with year exactly 1900 — the `strptime`
default for the yearless formats, but equally an explicitly written
1900 — the year is replaced by the reference year before the timestamp
is returned. -/
theorem c10_year_1900_replaced (raw : String) (now : DT) (d : DT)
    (h1 : hasSub (pyStrip (lowerStr raw)) "ago" = false)
    (h2 : hasSub (pyStrip (lowerStr raw)) "today" = false)
    (h3 : hasSub (pyStrip (lowerStr raw)) "yesterday" = false)
    (h4 : tryFormats (pyStrip (lowerStr raw)) = some d)
    (h5 : d.year = 1900) :
    parse_date raw now = isoOfDT { d with year := now.year } := by
  unfold parse_date parseDateCore
  rw [h1, h2, h3, h4]
  simp [h5]

/-- Witness for C10: the explicitly written year 1900 in
`"Jan 5, 1900"` is replaced by the reference year. -/
theorem c10_year_1900_replaced_witness :
    parse_date "Jan 5, 1900" dt0 = isoOfDT ⟨2024, 1, 5, 0, 0⟩ :=
  c10_year_1900_replaced "Jan 5, 1900" dt0 ⟨1900, 1, 5, 0, 0⟩
    (by decide) (by decide) (by decide) (by decide) (by decide)

end FinNews
